import Mathlib

/-!
Verification of the Smart_Taxi_App ride-request matching core and its clients.

The backend matching engine (RouteCatalog, TaxiRegistry, RequestStore,
MatchingEngine) is modelled from the specification, since the repository
snapshot contains only its clients: the driver-facing accept screen, the
passenger-facing monitoring screen, and the auth middleware, which are
embedded directly from their sources.
-/

namespace SmartTaxi

/-- Operational status of a taxi (spec section 3: `available`, `full`,
`not-available`, `off-duty`). -/
inductive TaxiStatus where
  | available
  | full
  | notAvailable
  | offDuty
deriving DecidableEq, Repr

/-- Lifecycle status of a ride request (spec section 3:
`pending` → `accepted` → `completed` | `cancelled`). -/
inductive ReqStatus where
  | pending
  | accepted
  | completed
  | cancelled
deriving DecidableEq, Repr

/-- Modelled from the spec: a RideRequest record (spec section 3). The request
type is kept as a raw string because the MatchingEngine must reject types
outside `ride`/`pickup` with `UnsupportedRequestType` (spec section 4.4 step 6). -/
structure RideRequest where
  passenger : String
  requestType : String
  startingStop : String
  destinationStop : Option String
  route : String
  status : ReqStatus
  acceptingTaxi : Option String
deriving DecidableEq, Repr

/-- Modelled from the spec: a Taxi record (spec section 3). -/
structure Taxi where
  route : Option String
  currentStop : String
  status : TaxiStatus
  load : Nat
  capacity : Nat
  driver : String
deriving DecidableEq, Repr

/-- Modelled from the spec: the shared mutable state — RouteCatalog (read-only
ordered stop sequences), RequestStore and TaxiRegistry (spec section 2),
each keyed by an identifier. -/
structure SysState where
  routes : String → Option (List String)
  requests : String → Option RideRequest
  taxis : String → Option Taxi

/-- Pointwise update of a keyed store. -/
def updFun {α : Type} (f : String → Option α) (k : String) (v : α) :
    String → Option α :=
  fun x => if x = k then some v else f x

theorem updFun_same {α : Type} (f : String → Option α) (k : String) (v : α) :
    updFun f k v k = some v := by
  simp [updFun]

theorem updFun_other {α : Type} (f : String → Option α) (k x : String) (v : α)
    (h : x ≠ k) : updFun f k v x = f x := by
  simp [updFun, h]

/-- Modelled from the spec: `RouteCatalog.stopPosition` (spec section 4.1) —
the zero-based position of a stop in a route's ordered stop sequence. -/
def stopPos : List String → String → Option Nat
  | [], _ => none
  | x :: xs, s => if x = s then some 0 else (stopPos xs s).map (· + 1)

/-- Result of the RequestStore check-and-set (spec section 4.3). -/
inductive TransResult where
  | Applied
  | AlreadyResolved
  | NotFound
deriving DecidableEq, Repr

/-- Modelled from the spec: `RequestStore.transitionPendingToAccepted`
(spec section 4.3) — indivisible check-and-set that succeeds only if the
current status is exactly `pending`; on success it sets the status to
`accepted` and records the accepting taxi. -/
def transitionPendingToAccepted (st : SysState) (reqId taxiId : String) :
    TransResult × SysState :=
  match st.requests reqId with
  | none => (.NotFound, st)
  | some r =>
    if r.status = .pending then
      (.Applied,
        { st with
          requests := updFun st.requests reqId
            { r with status := .accepted, acceptingTaxi := some taxiId } })
    else (.AlreadyResolved, st)

/-- Result of the TaxiRegistry compare-and-mutate (spec section 4.2). -/
inductive MutResult where
  | Applied
  | PredicateFailed
  | NotFound
deriving DecidableEq, Repr

/-- Modelled from the spec: `TaxiRegistry.compareAndMutate` (spec section 4.2) —
evaluates a predicate against the current taxi state and, only if it holds,
applies the mutation, as one indivisible step. -/
def compareAndMutate (st : SysState) (taxiId : String)
    (pred : Taxi → Bool) (mutation : Taxi → Taxi) : MutResult × SysState :=
  match st.taxis taxiId with
  | none => (.NotFound, st)
  | some t =>
    if pred t then
      (.Applied, { st with taxis := updFun st.taxis taxiId (mutation t) })
    else (.PredicateFailed, st)

/-- Modelled from the spec: the load increment applied on a successful accept
(spec section 4.4 step 7) — increment the load and, if the load reaches
capacity, flip the status to `full`. -/
def incLoad (t : Taxi) : Taxi :=
  { t with
    load := t.load + 1,
    status := if t.load + 1 = t.capacity then .full else t.status }

/-- Named outcomes of the accept protocol (spec sections 4.4 and 6; the
`InvalidRouteStops` outcome is the failure the driver client observes when a
stop cannot be resolved on the route). -/
inductive AcceptOutcome where
  | Success
  | RequestNotFound
  | RequestUnavailable
  | TaxiNotFound
  | RouteMismatch
  | TaxiNotAvailable
  | TaxiNotAvailableForPickup
  | StopAlreadyPassed
  | UnsupportedRequestType
  | InvalidRouteStops
deriving DecidableEq, Repr

/-- Modelled from the spec: the step-4 availability policy (spec section 4.4
step 4). A `ride` accept requires status `available`; a `pickup` accept is
allowed in a broader status set (here `available` or `not-available`); types
outside `ride`/`pickup` carry no policy and fall through to the step-6 type
check. Spec section 8 requires that an accept which would push the load past
capacity fails before any mutation, so in this sequential embedding the
capacity precondition is checked together with the status policy. -/
def availabilityCheck (t : Taxi) (ty : String) : Option AcceptOutcome :=
  if ty = "ride" then
    if t.status = .available ∧ t.load < t.capacity then none
    else some .TaxiNotAvailable
  else if ty = "pickup" then
    if (t.status = .available ∨ t.status = .notAvailable) ∧ t.load < t.capacity
    then none
    else some .TaxiNotAvailableForPickup
  else none

/-- Modelled from the spec: the read-mostly validation steps 3–6 of the accept
protocol (spec section 4.4), performed before the atomic claim. Returns
`none` when every check passes, otherwise the first failing check's outcome. -/
def validateAccept (st : SysState) (req : RideRequest) (taxi : Taxi) :
    Option AcceptOutcome :=
  if taxi.route ≠ some req.route then some .RouteMismatch
  else
    match availabilityCheck taxi req.requestType with
    | some o => some o
    | none =>
      match st.routes req.route with
      | none => some .InvalidRouteStops
      | some stops =>
        match stopPos stops req.startingStop, stopPos stops taxi.currentStop with
        | some ps, some pc =>
          if ps < pc then some .StopAlreadyPassed
          else if req.requestType ≠ "ride" ∧ req.requestType ≠ "pickup" then
            some .UnsupportedRequestType
          else none
        | _, _ => some .InvalidRouteStops

/-- Modelled from the spec: the MatchingEngine accept protocol (spec section
4.4): fetch the request (step 1), fetch the taxi (step 2), run the
validation steps 3–6, then atomically claim the request through the
RequestStore check-and-set and on its success increment the taxi load
through the TaxiRegistry compare-and-mutate (step 7). -/
def acceptRequest (st : SysState) (reqId taxiId : String) :
    AcceptOutcome × SysState :=
  match st.requests reqId with
  | none => (.RequestNotFound, st)
  | some req =>
    match st.taxis taxiId with
    | none => (.TaxiNotFound, st)
    | some taxi =>
      match validateAccept st req taxi with
      | some o => (o, st)
      | none =>
        match transitionPendingToAccepted st reqId taxiId with
        | (.Applied, st1) =>
          match compareAndMutate st1 taxiId
              (fun t => decide (t.load < t.capacity)) incLoad with
          | (.Applied, st2) => (.Success, st2)
          | (_, st') => (.TaxiNotAvailable, st')
        | (.AlreadyResolved, _) => (.RequestUnavailable, st)
        | (.NotFound, _) => (.RequestNotFound, st)

/-- Sequential execution of a batch of accept calls for the same request,
one per competing taxi, collecting the outcomes (spec section 8,
at-most-one accept). -/
def runAccepts (st : SysState) (reqId : String) :
    List String → List AcceptOutcome × SysState
  | [] => ([], st)
  | t :: ts =>
    let r := acceptRequest st reqId t
    let rest := runAccepts r.2 reqId ts
    (r.1 :: rest.1, rest.2)

/-- Sequential execution of an arbitrary sequence of accept calls
(request id, taxi id), returning the final state. -/
def runAll (st : SysState) : List (String × String) → SysState
  | [] => st
  | (q, t) :: rest => runAll (acceptRequest st q t).2 rest

/-- Whether the pair (request, taxi) would pass the read-mostly validation
steps 1–6 at the given state. -/
def passesValidation (st : SysState) (q tid : String) : Bool :=
  match st.requests q, st.taxis tid with
  | some req, some taxi => decide (validateAccept st req taxi = none)
  | _, _ => false

theorem trans_pending {st : SysState} {q : String} {r : RideRequest}
    (tid : String) (h : st.requests q = some r) (hp : r.status = .pending) :
    transitionPendingToAccepted st q tid =
      (.Applied,
        { st with
          requests := updFun st.requests q
            { r with status := .accepted, acceptingTaxi := some tid } }) := by
  simp [transitionPendingToAccepted, h, hp]

theorem trans_nonpending {st : SysState} {q : String} {r : RideRequest}
    (tid : String) (h : st.requests q = some r) (hp : r.status ≠ .pending) :
    transitionPendingToAccepted st q tid = (.AlreadyResolved, st) := by
  simp [transitionPendingToAccepted, h, hp]

theorem trans_none {st : SysState} {q : String} (tid : String)
    (h : st.requests q = none) :
    transitionPendingToAccepted st q tid = (.NotFound, st) := by
  simp [transitionPendingToAccepted, h]

theorem trans_notfound_iff {st : SysState} {q tid : String} :
    (transitionPendingToAccepted st q tid).1 = .NotFound ↔
      st.requests q = none := by
  constructor
  · intro h
    cases hreq : st.requests q with
    | none => rfl
    | some r =>
      by_cases hp : r.status = .pending
      · rw [trans_pending tid hreq hp] at h; exact absurd h (by simp)
      · rw [trans_nonpending tid hreq hp] at h; exact absurd h (by simp)
  · intro h; rw [trans_none tid h]

theorem availabilityCheck_range {t : Taxi} {ty : String} {o : AcceptOutcome}
    (h : availabilityCheck t ty = some o) :
    o = .TaxiNotAvailable ∨ o = .TaxiNotAvailableForPickup := by
  unfold availabilityCheck at h
  split at h
  · split at h
    · exact absurd h (by simp)
    · left; exact (Option.some.injEq _ _ ▸ h).symm
  · split at h
    · split at h
      · exact absurd h (by simp)
      · right; exact (Option.some.injEq _ _ ▸ h).symm
    · exact absurd h (by simp)

theorem availabilityCheck_none_ride {t : Taxi}
    (h : availabilityCheck t "ride" = none) :
    t.status = .available ∧ t.load < t.capacity := by
  unfold availabilityCheck at h
  rw [if_pos rfl] at h
  split at h
  · assumption
  · exact absurd h (by simp)

theorem availabilityCheck_none_pickup {t : Taxi}
    (h : availabilityCheck t "pickup" = none) :
    (t.status = .available ∨ t.status = .notAvailable) ∧
      t.load < t.capacity := by
  unfold availabilityCheck at h
  rw [if_neg (by decide), if_pos rfl] at h
  split at h
  · assumption
  · exact absurd h (by simp)

theorem availabilityCheck_none_load {t : Taxi} {ty : String}
    (h : availabilityCheck t ty = none)
    (hty : ty = "ride" ∨ ty = "pickup") : t.load < t.capacity := by
  rcases hty with rfl | rfl
  · exact (availabilityCheck_none_ride h).2
  · exact (availabilityCheck_none_pickup h).2

theorem validateAccept_none_iff {st : SysState} {req : RideRequest}
    {taxi : Taxi} :
    validateAccept st req taxi = none ↔
      taxi.route = some req.route ∧
      availabilityCheck taxi req.requestType = none ∧
      (∃ stops ps pc,
        st.routes req.route = some stops ∧
        stopPos stops req.startingStop = some ps ∧
        stopPos stops taxi.currentStop = some pc ∧ ¬ ps < pc) ∧
      (req.requestType = "ride" ∨ req.requestType = "pickup") := by
  constructor
  · intro h
    unfold validateAccept at h
    split at h
    · exact absurd h (by simp)
    · next hroute =>
      split at h
      · exact absurd h (by simp)
      · next ha =>
        split at h
        · exact absurd h (by simp)
        · next stops hs =>
          split at h
          · next ps pc hp1 hp2 =>
            split at h
            · exact absurd h (by simp)
            · next hlt =>
              split at h
              · exact absurd h (by simp)
              · next hty =>
                refine ⟨not_not.mp hroute, ha,
                  ⟨stops, ps, pc, hs, hp1, hp2, hlt⟩, ?_⟩
                by_contra hc
                push_neg at hc
                exact hty ⟨hc.1, hc.2⟩
          · next hwild => exact absurd h (by simp)
  · rintro ⟨hr, ha, ⟨stops, ps, pc, hs, hp1, hp2, hlt⟩, hty⟩
    unfold validateAccept
    rw [if_neg (not_not_intro hr)]
    simp only [ha, hs, hp1, hp2, hlt, if_false]
    rcases hty with h1 | h1 <;> simp [h1]

theorem validateAccept_range {st : SysState} {req : RideRequest} {taxi : Taxi}
    {o : AcceptOutcome} (h : validateAccept st req taxi = some o) :
    o = .RouteMismatch ∨ o = .TaxiNotAvailable ∨
      o = .TaxiNotAvailableForPickup ∨ o = .StopAlreadyPassed ∨
      o = .UnsupportedRequestType ∨ o = .InvalidRouteStops := by
  unfold validateAccept at h
  split at h
  · left; exact ((Option.some.injEq _ _).mp h).symm
  · split at h
    · next o' ha =>
      rcases availabilityCheck_range ha with h1 | h1 <;>
        rw [h1] at h <;> simp at h <;> simp [h.symm]
    · split at h
      · simp at h; simp [h.symm]
      · split at h
        · split at h
          · simp at h; simp [h.symm]
          · split at h
            · simp at h; simp [h.symm]
            · exact absurd h (by simp)
        · simp at h; simp [h.symm]

theorem acceptRequest_eq_of_valid {st : SysState} {q tid : String}
    {req : RideRequest} {taxi : Taxi}
    (hreq : st.requests q = some req) (htaxi : st.taxis tid = some taxi)
    (hp : req.status = .pending) (hv : validateAccept st req taxi = none) :
    acceptRequest st q tid =
      (.Success,
        { st with
          requests := updFun st.requests q
            { req with status := .accepted, acceptingTaxi := some tid },
          taxis := updFun st.taxis tid (incLoad taxi) }) := by
  have hload : taxi.load < taxi.capacity := by
    obtain ⟨_, ha, _, hty⟩ := validateAccept_none_iff.mp hv
    exact availabilityCheck_none_load ha hty
  unfold acceptRequest
  simp only [hreq, htaxi, hv, trans_pending tid hreq hp, compareAndMutate,
    decide_eq_true hload, if_true]

theorem acceptRequest_success_iff {st : SysState} {q tid : String} :
    (acceptRequest st q tid).1 = .Success ↔
      ∃ req taxi, st.requests q = some req ∧ st.taxis tid = some taxi ∧
        req.status = .pending ∧ validateAccept st req taxi = none := by
  constructor
  · intro h
    unfold acceptRequest at h
    cases hreq : st.requests q with
    | none => simp only [hreq] at h; exact absurd h (by simp)
    | some req =>
      simp only [hreq] at h
      cases htaxi : st.taxis tid with
      | none => simp only [htaxi] at h; exact absurd h (by simp)
      | some taxi =>
        simp only [htaxi] at h
        cases hv : validateAccept st req taxi with
        | some o =>
          simp only [hv] at h
          rcases validateAccept_range hv with h1|h1|h1|h1|h1|h1 <;>
            subst h1 <;> exact absurd h (by simp)
        | none =>
          simp only [hv] at h
          by_cases hp : req.status = .pending
          · exact ⟨req, taxi, rfl, rfl, hp, hv⟩
          · rw [trans_nonpending tid hreq hp] at h
            exact absurd h (by simp)
  · rintro ⟨req, taxi, hreq, htaxi, hp, hv⟩
    rw [acceptRequest_eq_of_valid hreq htaxi hp hv]

theorem acceptRequest_fail_state {st : SysState} {q tid : String}
    (h : (acceptRequest st q tid).1 ≠ .Success) :
    (acceptRequest st q tid).2 = st := by
  unfold acceptRequest at *
  cases hreq : st.requests q with
  | none => simp [hreq]
  | some req =>
    simp only [hreq] at h ⊢
    cases htaxi : st.taxis tid with
    | none => simp [htaxi]
    | some taxi =>
      simp only [htaxi] at h ⊢
      cases hv : validateAccept st req taxi with
      | some o => simp [hv]
      | none =>
        simp only [hv] at h ⊢
        by_cases hp : req.status = .pending
        · exfalso
          apply h
          have heq := acceptRequest_eq_of_valid hreq htaxi hp hv
          unfold acceptRequest at heq
          simp only [hreq, htaxi, hv] at heq
          rw [heq]
        · simp [trans_nonpending tid hreq hp]

theorem acceptRequest_success_state {st : SysState} {q tid : String}
    (h : (acceptRequest st q tid).1 = .Success) :
    ∃ req taxi, st.requests q = some req ∧ st.taxis tid = some taxi ∧
      req.status = .pending ∧ validateAccept st req taxi = none ∧
      (acceptRequest st q tid).2 =
        { st with
          requests := updFun st.requests q
            { req with status := .accepted, acceptingTaxi := some tid },
          taxis := updFun st.taxis tid (incLoad taxi) } := by
  obtain ⟨req, taxi, hreq, htaxi, hp, hv⟩ := acceptRequest_success_iff.mp h
  exact ⟨req, taxi, hreq, htaxi, hp, hv, by
    rw [acceptRequest_eq_of_valid hreq htaxi hp hv]⟩

theorem acceptRequest_preserves_nonpending {st : SysState} {q tid q' : String}
    {r' : RideRequest} (hq' : st.requests q' = some r')
    (hnp : r'.status ≠ .pending) :
    (acceptRequest st q tid).2.requests q' = some r' := by
  by_cases hS : (acceptRequest st q tid).1 = .Success
  · obtain ⟨req, taxi, hreq, htaxi, hp, hv, hst⟩ :=
      acceptRequest_success_state hS
    rw [hst]
    show updFun st.requests q _ q' = some r'
    by_cases he : q' = q
    · subst he
      rw [hq'] at hreq
      cases hreq
      exact absurd hp hnp
    · rw [updFun_other _ _ _ _ he]; exact hq'
  · rw [acceptRequest_fail_state hS]; exact hq'

theorem acceptRequest_not_success_of_notpending {st : SysState}
    {q tid : String}
    (h : ∀ r, st.requests q = some r → r.status ≠ .pending) :
    (acceptRequest st q tid).1 ≠ .Success := by
  intro hS
  obtain ⟨req, _, hreq, _, hp, _⟩ := acceptRequest_success_iff.mp hS
  exact h req hreq hp

theorem runAccepts_count_zero {st : SysState} {q : String}
    (h : ∀ r, st.requests q = some r → r.status ≠ .pending) :
    ∀ ts : List String,
      ((runAccepts st q ts).1.countP (fun o => o == .Success)) = 0 := by
  intro ts
  induction ts generalizing st with
  | nil => simp [runAccepts]
  | cons t ts ih =>
    have hns := @acceptRequest_not_success_of_notpending st q t h
    have hfr := acceptRequest_fail_state hns
    simp only [runAccepts, List.countP_cons]
    rw [hfr]
    have h0 := @ih st h
    simp only [h0, Nat.zero_add]
    simp [hns]

theorem acceptRequest_accepted_after_success {st : SysState} {q tid : String}
    (hS : (acceptRequest st q tid).1 = .Success) :
    ∀ r, (acceptRequest st q tid).2.requests q = some r →
      r.status ≠ .pending := by
  obtain ⟨req, taxi, hreq, htaxi, hp, hv, hst⟩ :=
    acceptRequest_success_state hS
  intro r hr
  rw [hst] at hr
  have : updFun st.requests q
      { req with status := .accepted, acceptingTaxi := some tid } q =
      some { req with status := .accepted, acceptingTaxi := some tid } :=
    updFun_same _ _ _
  rw [show ({ st with
      requests := updFun st.requests q
        { req with status := .accepted, acceptingTaxi := some tid },
      taxis := updFun st.taxis tid (incLoad taxi) } : SysState).requests =
      updFun st.requests q
        { req with status := .accepted, acceptingTaxi := some tid } from rfl,
    this] at hr
  cases hr
  simp

theorem runAccepts_count_le_one (q : String) :
    ∀ (ts : List String) (st : SysState),
      ((runAccepts st q ts).1.countP (fun o => o == .Success)) ≤ 1 := by
  intro ts
  induction ts with
  | nil => intro st; simp [runAccepts]
  | cons t ts ih =>
    intro st
    simp only [runAccepts, List.countP_cons]
    by_cases hS : (acceptRequest st q t).1 = .Success
    · have hz := runAccepts_count_zero
        (acceptRequest_accepted_after_success hS) ts
      rw [hz]
      simp [hS]
    · rw [acceptRequest_fail_state hS]
      have hb : ((acceptRequest st q t).1 == AcceptOutcome.Success) = false := by
        simpa using hS
      simp only [hb, if_false, Nat.add_zero]
      exact ih st

theorem runAccepts_count_eq_one {q : String} :
    ∀ (ts : List String) (st : SysState),
      (∃ r, st.requests q = some r ∧ r.status = .pending) →
      (∃ tid ∈ ts, passesValidation st q tid = true) →
      ((runAccepts st q ts).1.countP (fun o => o == .Success)) = 1 := by
  intro ts
  induction ts with
  | nil => rintro st _ ⟨tid, htid, _⟩; exact absurd htid (by simp)
  | cons t ts ih =>
    rintro st ⟨r, hr, hp⟩ ⟨tid, htid, hpass⟩
    simp only [runAccepts, List.countP_cons]
    by_cases hS : (acceptRequest st q t).1 = .Success
    · have hz := runAccepts_count_zero
        (acceptRequest_accepted_after_success hS) ts
      rw [hz]
      simp [hS]
    · have hfr := acceptRequest_fail_state hS
      rw [hfr]
      have hmem : tid ∈ ts := by
        rcases List.mem_cons.mp htid with rfl | hmem
        · exfalso
          apply hS
          apply acceptRequest_success_iff.mpr
          unfold passesValidation at hpass
          cases htax : st.taxis tid with
          | none =>
            simp only [hr, htax] at hpass
            exact absurd hpass (by decide)
          | some taxi =>
            simp only [hr, htax] at hpass
            exact ⟨r, taxi, hr, rfl, hp, by simpa using hpass⟩
        · exact hmem
      have hone := ih st ⟨r, hr, hp⟩ ⟨tid, hmem, hpass⟩
      have hb : ((acceptRequest st q t).1 == AcceptOutcome.Success) = false := by
        simpa using hS
      simp [hone, hb]

/-- Capacity invariant on a whole state: every registered taxi's load is at
most its capacity (spec sections 3 and 8). -/
def loadsOk (st : SysState) : Prop :=
  ∀ tid t, st.taxis tid = some t → t.load ≤ t.capacity

theorem acceptRequest_loadsOk {st : SysState} {q tid : String}
    (h : loadsOk st) : loadsOk (acceptRequest st q tid).2 := by
  by_cases hS : (acceptRequest st q tid).1 = .Success
  · obtain ⟨req, taxi, hreq, htaxi, hp, hv, hst⟩ :=
      acceptRequest_success_state hS
    have hload : taxi.load < taxi.capacity := by
      obtain ⟨_, ha, _, hty⟩ := validateAccept_none_iff.mp hv
      exact availabilityCheck_none_load ha hty
    intro tid' t' ht'
    rw [hst] at ht'
    show t'.load ≤ t'.capacity
    by_cases he : tid' = tid
    · subst he
      have : updFun st.taxis tid' (incLoad taxi) tid' = some (incLoad taxi) :=
        updFun_same _ _ _
      rw [show ({ st with
          requests := updFun st.requests q
            { req with status := .accepted, acceptingTaxi := some tid' },
          taxis := updFun st.taxis tid' (incLoad taxi) } : SysState).taxis =
          updFun st.taxis tid' (incLoad taxi) from rfl, this] at ht'
      cases ht'
      show taxi.load + 1 ≤ taxi.capacity
      omega
    · have : updFun st.taxis tid (incLoad taxi) tid' = st.taxis tid' :=
        updFun_other _ _ _ _ he
      rw [show ({ st with
          requests := updFun st.requests q
            { req with status := .accepted, acceptingTaxi := some tid },
          taxis := updFun st.taxis tid (incLoad taxi) } : SysState).taxis =
          updFun st.taxis tid (incLoad taxi) from rfl, this] at ht'
      exact h tid' t' ht'
  · rw [acceptRequest_fail_state hS]; exact h

theorem runAll_loadsOk {st : SysState} (h : loadsOk st) :
    ∀ calls : List (String × String), loadsOk (runAll st calls) := by
  intro calls
  induction calls generalizing st with
  | nil => exact h
  | cons c rest ih =>
    cases c with
    | mk q tid => exact ih (acceptRequest_loadsOk h)

theorem accept_at_capacity_ride {st : SysState} {q tid : String}
    {req : RideRequest} {taxi : Taxi}
    (hreq : st.requests q = some req) (hty : req.requestType = "ride")
    (htaxi : st.taxis tid = some taxi) (hcap : taxi.capacity ≤ taxi.load)
    (hroute : taxi.route = some req.route) :
    acceptRequest st q tid = (.TaxiNotAvailable, st) := by
  have hv : validateAccept st req taxi = some .TaxiNotAvailable := by
    unfold validateAccept availabilityCheck
    rw [if_neg (not_not_intro hroute), hty]
    simp [Nat.not_lt.mpr hcap]
  unfold acceptRequest
  simp only [hreq, htaxi, hv]

theorem accept_at_capacity_pickup {st : SysState} {q tid : String}
    {req : RideRequest} {taxi : Taxi}
    (hreq : st.requests q = some req) (hty : req.requestType = "pickup")
    (htaxi : st.taxis tid = some taxi) (hcap : taxi.capacity ≤ taxi.load)
    (hroute : taxi.route = some req.route) :
    acceptRequest st q tid = (.TaxiNotAvailableForPickup, st) := by
  have hv : validateAccept st req taxi = some .TaxiNotAvailableForPickup := by
    unfold validateAccept availabilityCheck
    rw [if_neg (not_not_intro hroute), hty]
    simp [Nat.not_lt.mpr hcap]
  unfold acceptRequest
  simp only [hreq, htaxi, hv]

theorem accept_success_full {st : SysState} {q tid : String}
    (hS : (acceptRequest st q tid).1 = .Success) :
    ∀ t', (acceptRequest st q tid).2.taxis tid = some t' →
      t'.load = t'.capacity → t'.status = .full := by
  obtain ⟨req, taxi, hreq, htaxi, hp, hv, hst⟩ :=
    acceptRequest_success_state hS
  intro t' ht' hfullload
  rw [hst] at ht'
  have : updFun st.taxis tid (incLoad taxi) tid = some (incLoad taxi) :=
    updFun_same _ _ _
  rw [show ({ st with
      requests := updFun st.requests q
        { req with status := .accepted, acceptingTaxi := some tid },
      taxis := updFun st.taxis tid (incLoad taxi) } : SysState).taxis =
      updFun st.taxis tid (incLoad taxi) from rfl, this] at ht'
  cases ht'
  have hcap : taxi.load + 1 = taxi.capacity := hfullload
  show (if taxi.load + 1 = taxi.capacity then TaxiStatus.full
    else taxi.status) = TaxiStatus.full
  rw [if_pos hcap]

theorem availabilityCheck_at_capacity_ride {t : Taxi}
    (hcap : t.capacity ≤ t.load) :
    availabilityCheck t "ride" = some .TaxiNotAvailable := by
  unfold availabilityCheck
  rw [if_pos rfl]
  rw [if_neg (fun hc => absurd hc.2 (Nat.not_lt.mpr hcap))]

theorem availabilityCheck_at_capacity_pickup {t : Taxi}
    (hcap : t.capacity ≤ t.load) :
    availabilityCheck t "pickup" = some .TaxiNotAvailableForPickup := by
  unfold availabilityCheck
  rw [if_neg (by decide), if_pos rfl]
  rw [if_neg (fun hc => absurd hc.2 (Nat.not_lt.mpr hcap))]

theorem availabilityCheck_incLoad_none {taxi : Taxi} {ty : String}
    (ha : availabilityCheck taxi ty = none)
    (hty : ty = "ride" ∨ ty = "pickup")
    (hlt : (incLoad taxi).load < (incLoad taxi).capacity) :
    availabilityCheck (incLoad taxi) ty = none := by
  have hne : ¬ taxi.load + 1 = taxi.capacity := by
    have : taxi.load + 1 < taxi.capacity := hlt
    omega
  have hstat : (incLoad taxi).status = taxi.status := by
    show (if taxi.load + 1 = taxi.capacity then TaxiStatus.full
      else taxi.status) = taxi.status
    rw [if_neg hne]
  rcases hty with rfl | rfl
  · obtain ⟨hs, _⟩ := availabilityCheck_none_ride ha
    unfold availabilityCheck
    rw [if_pos rfl, if_pos ⟨hstat.trans hs, hlt⟩]
  · obtain ⟨hs, _⟩ := availabilityCheck_none_pickup ha
    unfold availabilityCheck
    rw [if_neg (by decide), if_pos rfl]
    rw [if_pos ⟨by rw [hstat]; exact hs, hlt⟩]


theorem validateAccept_same_fields {st st1 : SysState}
    {req req1 : RideRequest} {taxi taxi1 : Taxi}
    (hv : validateAccept st req taxi = none)
    (hroutes : st1.routes = st.routes)
    (e1 : req1.requestType = req.requestType)
    (e2 : req1.startingStop = req.startingStop)
    (e3 : req1.route = req.route)
    (e4 : taxi1.route = taxi.route)
    (e5 : taxi1.currentStop = taxi.currentStop) :
    validateAccept st1 req1 taxi1 =
      availabilityCheck taxi1 req1.requestType := by
  obtain ⟨hr, ha, ⟨stops, ps, pc, hs, hp1, hp2, hlt⟩, hty⟩ :=
    validateAccept_none_iff.mp hv
  unfold validateAccept
  rw [if_neg (not_not_intro (show taxi1.route = some req1.route by
    rw [e4, e3]; exact hr))]
  cases hA : availabilityCheck taxi1 req1.requestType with
  | some o => simp only [hA]
  | none =>
    simp only [hA, hroutes, e1, e2, e3, e4, e5, hs, hp1, hp2, hlt, if_false]
    rcases hty with h1 | h1 <;> simp [h1]

theorem acceptRequest_of_validate_some {st1 : SysState} {q tid : String}
    {req1 : RideRequest} {taxi1 : Taxi} {o : AcceptOutcome}
    (hreq1 : st1.requests q = some req1)
    (htaxi1 : st1.taxis tid = some taxi1)
    (hv : validateAccept st1 req1 taxi1 = some o) :
    acceptRequest st1 q tid = (o, st1) := by
  unfold acceptRequest
  simp only [hreq1, htaxi1, hv]

theorem acceptRequest_retry_core {st1 : SysState} {q tid : String}
    {req1 : RideRequest} {taxi1 : Taxi}
    (hreq1 : st1.requests q = some req1)
    (htaxi1 : st1.taxis tid = some taxi1)
    (hnp : req1.status ≠ .pending)
    (hvr : validateAccept st1 req1 taxi1 =
      availabilityCheck taxi1 req1.requestType) :
    (acceptRequest st1 q tid).2 = st1 ∧
    ((acceptRequest st1 q tid).1 = .RequestUnavailable ∨
      (acceptRequest st1 q tid).1 = .TaxiNotAvailable ∨
      (acceptRequest st1 q tid).1 = .TaxiNotAvailableForPickup) ∧
    (availabilityCheck taxi1 req1.requestType = none →
      (acceptRequest st1 q tid).1 = .RequestUnavailable) := by
  cases hA : availabilityCheck taxi1 req1.requestType with
  | some o =>
    have hvr' : validateAccept st1 req1 taxi1 = some o := hvr.trans hA
    have heq : acceptRequest st1 q tid = (o, st1) := by
      unfold acceptRequest
      simp only [hreq1, htaxi1, hvr']
    refine ⟨by rw [heq], ?_, ?_⟩
    · rw [heq]
      rcases availabilityCheck_range hA with h1 | h1 <;> simp [h1]
    · intro hnone
      exact absurd hnone (by simp)
  | none =>
    have hvr' : validateAccept st1 req1 taxi1 = none := hvr.trans hA
    have heq : acceptRequest st1 q tid = (.RequestUnavailable, st1) := by
      unfold acceptRequest
      simp only [hreq1, htaxi1, hvr', trans_nonpending tid hreq1 hnp]
    exact ⟨by rw [heq], by rw [heq]; simp, fun _ => by rw [heq]⟩

theorem acceptRequest_retry {st : SysState} {q tid : String}
    (hS : (acceptRequest st q tid).1 = .Success) :
    (acceptRequest (acceptRequest st q tid).2 q tid).2 =
      (acceptRequest st q tid).2 ∧
    ((acceptRequest (acceptRequest st q tid).2 q tid).1 =
        .RequestUnavailable ∨
      (acceptRequest (acceptRequest st q tid).2 q tid).1 =
        .TaxiNotAvailable ∨
      (acceptRequest (acceptRequest st q tid).2 q tid).1 =
        .TaxiNotAvailableForPickup) ∧
    (∀ t1, (acceptRequest st q tid).2.taxis tid = some t1 →
      t1.load < t1.capacity →
      (acceptRequest (acceptRequest st q tid).2 q tid).1 =
        .RequestUnavailable) := by
  obtain ⟨req, taxi, hreq, htaxi, hp, hv, hst⟩ :=
    acceptRequest_success_state hS
  have hreq1 : (acceptRequest st q tid).2.requests q =
      some { req with status := .accepted, acceptingTaxi := some tid } := by
    rw [hst]; exact updFun_same _ _ _
  have htaxi1 : (acceptRequest st q tid).2.taxis tid =
      some (incLoad taxi) := by
    rw [hst]; exact updFun_same _ _ _
  have hroutes1 : (acceptRequest st q tid).2.routes = st.routes := by
    rw [hst]
  obtain ⟨_, ha, _, hty⟩ := validateAccept_none_iff.mp hv
  have hvr : validateAccept (acceptRequest st q tid).2
      { req with status := .accepted, acceptingTaxi := some tid }
      (incLoad taxi) =
      availabilityCheck (incLoad taxi)
        ({ req with status := .accepted, acceptingTaxi := some tid } :
          RideRequest).requestType :=
    validateAccept_same_fields hv hroutes1 rfl rfl rfl rfl rfl
  have hnp : ({ req with status := .accepted, acceptingTaxi := some tid } :
      RideRequest).status ≠ .pending := by simp
  obtain ⟨h1, h2, h3⟩ := acceptRequest_retry_core hreq1 htaxi1 hnp hvr
  refine ⟨h1, h2, ?_⟩
  intro t1 ht1 hlt
  rw [htaxi1] at ht1
  cases ht1
  exact h3 (availabilityCheck_incLoad_none ha hty hlt)

theorem acceptRequest_outcome_char {st : SysState} {q tid : String}
    {req : RideRequest} {taxi : Taxi}
    (hreq : st.requests q = some req) (htaxi : st.taxis tid = some taxi) :
    (validateAccept st req taxi = none ∧ req.status = .pending ∧
      (acceptRequest st q tid).1 = .Success) ∨
    (validateAccept st req taxi = none ∧ req.status ≠ .pending ∧
      (acceptRequest st q tid).1 = .RequestUnavailable) ∨
    (∃ o, validateAccept st req taxi = some o ∧
      (acceptRequest st q tid).1 = o) := by
  cases hv : validateAccept st req taxi with
  | some o =>
    refine Or.inr (Or.inr ⟨o, rfl, ?_⟩)
    unfold acceptRequest
    simp only [hreq, htaxi, hv]
  | none =>
    by_cases hp : req.status = .pending
    · refine Or.inl ⟨rfl, hp, ?_⟩
      rw [acceptRequest_eq_of_valid hreq htaxi hp hv]
    · refine Or.inr (Or.inl ⟨rfl, hp, ?_⟩)
      unfold acceptRequest
      simp only [hreq, htaxi, hv, trans_nonpending tid hreq hp]

theorem acceptRequest_reqnotfound_iff {st : SysState} {q tid : String} :
    (acceptRequest st q tid).1 = .RequestNotFound ↔
      st.requests q = none := by
  constructor
  · intro h
    cases hreq : st.requests q with
    | none => rfl
    | some req =>
      exfalso
      cases htaxi : st.taxis tid with
      | none =>
        unfold acceptRequest at h
        simp only [hreq, htaxi] at h
        exact absurd h (by decide)
      | some taxi =>
        rcases acceptRequest_outcome_char hreq htaxi with
          ⟨_, _, ho⟩ | ⟨_, _, ho⟩ | ⟨o, hvo, ho⟩
        · rw [ho] at h; exact absurd h (by decide)
        · rw [ho] at h; exact absurd h (by decide)
        · rw [ho] at h
          subst h
          rcases validateAccept_range hvo with h1|h1|h1|h1|h1|h1 <;>
            exact absurd h1 (by decide)
  · intro h
    unfold acceptRequest
    simp only [h]

theorem acceptRequest_taxinotfound_iff {st : SysState} {q tid : String} :
    (acceptRequest st q tid).1 = .TaxiNotFound ↔
      (st.requests q).isSome ∧ st.taxis tid = none := by
  constructor
  · intro h
    cases hreq : st.requests q with
    | none =>
      exfalso
      unfold acceptRequest at h
      simp only [hreq] at h
      exact absurd h (by decide)
    | some req =>
      cases htaxi : st.taxis tid with
      | none => exact ⟨by simp, rfl⟩
      | some taxi =>
        exfalso
        rcases acceptRequest_outcome_char hreq htaxi with
          ⟨_, _, ho⟩ | ⟨_, _, ho⟩ | ⟨o, hvo, ho⟩
        · rw [ho] at h; exact absurd h (by decide)
        · rw [ho] at h; exact absurd h (by decide)
        · rw [ho] at h
          subst h
          rcases validateAccept_range hvo with h1|h1|h1|h1|h1|h1 <;>
            exact absurd h1 (by decide)
  · rintro ⟨h1, h2⟩
    cases hreq : st.requests q with
    | none => rw [hreq] at h1; exact absurd h1 (by simp)
    | some req =>
      unfold acceptRequest
      simp only [hreq, h2]

theorem validateAccept_routemismatch_iff {st : SysState}
    {req : RideRequest} {taxi : Taxi} :
    validateAccept st req taxi = some .RouteMismatch ↔
      taxi.route ≠ some req.route := by
  constructor
  · intro h
    unfold validateAccept at h
    split at h
    · assumption
    · split at h
      · next o ha =>
        rcases availabilityCheck_range ha with h1 | h1 <;> subst h1 <;>
          exact absurd h (by simp)
      · split at h
        · exact absurd h (by simp)
        · split at h
          · split at h
            · exact absurd h (by simp)
            · split at h
              · exact absurd h (by simp)
              · exact absurd h (by simp)
          · exact absurd h (by simp)
  · intro h
    unfold validateAccept
    rw [if_pos h]

theorem validateAccept_avail_eq {st : SysState} {req : RideRequest}
    {taxi : Taxi} {o : AcceptOutcome}
    (hroute : taxi.route = some req.route)
    (ho : o = .TaxiNotAvailable ∨ o = .TaxiNotAvailableForPickup) :
    (validateAccept st req taxi = some o ↔
      availabilityCheck taxi req.requestType = some o) := by
  constructor
  · intro h
    unfold validateAccept at h
    rw [if_neg (not_not_intro hroute)] at h
    split at h
    · next o' ha => rw [ha]; exact h
    · exfalso
      split at h
      · rcases ho with rfl | rfl <;> exact absurd h (by simp)
      · split at h
        · split at h
          · rcases ho with rfl | rfl <;> exact absurd h (by simp)
          · split at h
            · rcases ho with rfl | rfl <;> exact absurd h (by simp)
            · rcases ho with rfl | rfl <;> exact absurd h (by simp)
        · rcases ho with rfl | rfl <;> exact absurd h (by simp)
  · intro h
    unfold validateAccept
    rw [if_neg (not_not_intro hroute)]
    simp only [h]

theorem validateAccept_stop_iff {st : SysState} {req : RideRequest}
    {taxi : Taxi} {stops : List String} {ps pc : Nat}
    (hroute : taxi.route = some req.route)
    (ha : availabilityCheck taxi req.requestType = none)
    (hs : st.routes req.route = some stops)
    (hp1 : stopPos stops req.startingStop = some ps)
    (hp2 : stopPos stops taxi.currentStop = some pc) :
    (validateAccept st req taxi = some .StopAlreadyPassed ↔ ps < pc) := by
  unfold validateAccept
  rw [if_neg (not_not_intro hroute)]
  simp only [ha, hs, hp1, hp2]
  constructor
  · intro h
    by_contra hlt
    rw [if_neg hlt] at h
    split at h
    · exact absurd h (by simp)
    · exact absurd h (by simp)
  · intro h
    rw [if_pos h]

theorem validateAccept_stop_implies {st : SysState} {req : RideRequest}
    {taxi : Taxi} {stops : List String} {ps pc : Nat}
    (hs : st.routes req.route = some stops)
    (hp1 : stopPos stops req.startingStop = some ps)
    (hp2 : stopPos stops taxi.currentStop = some pc)
    (h : validateAccept st req taxi = some .StopAlreadyPassed) : ps < pc := by
  unfold validateAccept at h
  split at h
  · exact absurd h (by simp)
  · split at h
    · next o ha =>
      rcases availabilityCheck_range ha with h1 | h1 <;> subst h1 <;>
        exact absurd h (by simp)
    · rw [hs] at h
      simp only [hp1, hp2] at h
      split at h
      · assumption
      · split at h
        · exact absurd h (by simp)
        · exact absurd h (by simp)

/-- List-of-characters test: does `s` start with `pat`? -/
def startsWithL : List Char → List Char → Bool
  | _, [] => true
  | [], _ :: _ => false
  | c :: s, p :: ps => c == p && startsWithL s ps

/-- List-of-characters substring test, used to embed JavaScript's
`String.includes`. -/
def hasSubL (pat : List Char) : List Char → Bool
  | [] => pat.isEmpty
  | c :: t => startsWithL (c :: t) pat || hasSubL pat t

/-- Embeds JavaScript's `s.includes(pat)`. -/
def strHasSub (s pat : String) : Bool := hasSubL pat.data s.data

/-- ASCII lower-casing of one character, as JavaScript's `toLowerCase`
behaves on the ASCII error messages involved. -/
def lowerChar (c : Char) : Char :=
  if 65 ≤ c.toNat ∧ c.toNat ≤ 90 then Char.ofNat (c.toNat + 32) else c

/-- ASCII lower-casing of a string. -/
def lowerStr (s : String) : String := String.mk (s.data.map lowerChar)

/-- Embedded from the driver screen source (`handleAccept`, non-success
branch): maps the HTTP status code and the server's error message to the
(title, message) pair shown in the error modal, together with a flag telling
whether the screen refreshes its request list afterwards. The cascade of
case-insensitive `includes` tests is translated clause by clause. -/
def acceptErrorAction (statusCode : Nat) (errorMsg : String) :
    (String × String) × Bool :=
  let m := lowerStr errorMsg
  if strHasSub m "ride request not found" then
    (("Request Not Found",
      "The requested ride was not found or might have been cancelled."),
     false)
  else if strHasSub m "request is no longer pending" then
    (("Request Unavailable",
      "This request is no longer pending and cannot be accepted."), true)
  else if strHasSub m "taxi for this driver not found" then
    (("Taxi Error",
      "Your taxi information could not be found. Please contact support."),
     false)
  else if strHasSub m "taxi is not on the correct route" then
    (("Route Mismatch",
      "Your taxi is not on the correct route for this request."), false)
  else if strHasSub m "taxi is not available for ride requests" then
    (("Taxi Unavailable",
      "Your taxi is not currently available for ride requests."), false)
  else if strHasSub m "invalid route stops data" then
    (("Data Error",
      "There was an issue with the route information. Please try again later."),
     false)
  else if strHasSub m "taxi has already passed the passenger\x27s starting stop"
  then
    (("Stop Passed",
      "Your taxi has already passed the passenger\x27s starting stop."), true)
  else if strHasSub m "taxi is not available for pickup requests" then
    (("Taxi Unavailable",
      "Your taxi is not currently available for pickup requests."), false)
  else if strHasSub m "unsupported request type" then
    (("Unsupported Type", "This request type is not supported."), false)
  else if 500 ≤ statusCode then
    (("Server Error",
      "An error occurred on the server. Please try again later."), false)
  else
    (("HTTP Error " ++ toString statusCode, errorMsg), false)

/-- The (title, message) pair shown to the driver for a server error. -/
def acceptErrorDisplay (statusCode : Nat) (errorMsg : String) :
    String × String :=
  (acceptErrorAction statusCode errorMsg).1

/-- The backend message text for each named accept outcome, as witnessed by
the substrings the driver client matches on (driver screen source,
`handleAccept`). -/
def canonicalServerMessage : AcceptOutcome → String
  | .Success => ""
  | .RequestNotFound => "Ride request not found"
  | .RequestUnavailable => "Request is no longer pending"
  | .TaxiNotFound => "Taxi for this driver not found"
  | .RouteMismatch => "Taxi is not on the correct route"
  | .TaxiNotAvailable => "Taxi is not available for ride requests"
  | .TaxiNotAvailableForPickup => "Taxi is not available for pickup requests"
  | .StopAlreadyPassed =>
      "Taxi has already passed the passenger\x27s starting stop"
  | .UnsupportedRequestType => "Unsupported request type"
  | .InvalidRouteStops => "Invalid route stops data"

/-- The eight named failure outcomes of the accept protocol that the claim
about distinct driver-facing messages ranges over. -/
def namedFailures : List AcceptOutcome :=
  [.RequestNotFound, .RequestUnavailable, .TaxiNotFound, .RouteMismatch,
   .TaxiNotAvailable, .TaxiNotAvailableForPickup, .StopAlreadyPassed,
   .UnsupportedRequestType]

/-- A ride request as displayed in the driver's request list (driver screen
source, interface RideRequest; `id` embeds the `_id` field). -/
structure ClientRequest where
  id : String
  passenger : String
  startingStop : String
  destinationStop : String
  requestType : String
  status : String
deriving DecidableEq, Repr

/-- The server's reply to the accept call as seen by the driver screen:
a 2xx reply, a non-2xx reply with a parsed JSON error message, a non-2xx
reply whose body fails to parse, or a thrown error before any reply. -/
inductive AcceptResp where
  | ok
  | err (status : Nat) (serverError : Option String)
  | errRaw (status : Nat)
  | netfail (message : String)
deriving DecidableEq, Repr

/-- The driver screen state touched by `handleAccept`: the request list, the
id of the request currently being accepted (None when idle), and the error
modal contents. -/
structure ScreenState where
  requests : List ClientRequest
  isAccepting : Option String
  errorShown : Option (String × String)
deriving DecidableEq, Repr

/-- Embedded from the driver screen source (`handleAccept`): sets
`isAccepting` to the request id, branches on the token and the server
reply — on success filtering the accepted request out of the list, on a
refresh-triggering error replacing the list with the refetched data
(empty on a failed refetch) — and finally resets `isAccepting` to None on
every path. -/
def runHandleAccept (requestId : String) (token : Option String)
    (resp : AcceptResp) (refreshData : Option (List ClientRequest))
    (st : ScreenState) : ScreenState :=
  let st1 : ScreenState := { st with isAccepting := some requestId }
  let st2 : ScreenState :=
    match token with
    | none =>
      { st1 with
        errorShown := some ("Authentication Error",
          "Authentication token not found. Please log in again.") }
    | some _ =>
      match resp with
      | .ok =>
        { st1 with
          requests := st1.requests.filter (fun r => r.id != requestId) }
      | .err status serverError =>
        let errorMsg := serverError.getD
          ("Server responded with status " ++ toString status ++ ".")
        let act := acceptErrorAction status errorMsg
        let stE : ScreenState := { st1 with errorShown := some act.1 }
        if act.2 then { stE with requests := refreshData.getD [] } else stE
      | .errRaw status =>
        { st1 with
          errorShown := some ("Request Failed (Status: " ++
            toString status ++ ")",
            "An unexpected error occurred on the server.") }
      | .netfail message =>
        if strHasSub message "Network request failed" then
          { st1 with
            errorShown := some ("Network Error",
              "Could not connect to the server. Please check your internet connection.") }
        else
          { st1 with
            errorShown := some ("Unexpected Error",
              if message = "" then
                "An unexpected error occurred while trying to accept the request."
              else message) }
  { st2 with isAccepting := none }

/-- Embedded from the driver screen source (`renderItem` and `ActionButton`):
an Accept button is disabled when any accept is in flight
(`disabled` prop) or when it is the one loading (`loading` prop). -/
def acceptButtonDisabledFor (isAcc : Option String) (itemId : String) :
    Bool :=
  isAcc.isSome || (isAcc == some itemId)

/-- The live taxi snapshot shown to a monitoring passenger (passenger home
screen source, interface TaxiInfo). -/
structure TaxiInfo where
  numberPlate : String
  status : String
  currentStop : String
  currentLoad : Nat
  routeName : String
  nextStop : String
  driverUsername : String
deriving DecidableEq, Repr

/-- Embedded from the passenger home screen source (the `taxiUpdate` and
`taxiUpdateForPassenger` socket handlers): an incoming taxi-state event
replaces the monitored-taxi display only when a taxi is being monitored and
the event's number plate equals the monitored taxi's; otherwise the display
is unchanged, and with no monitored taxi (after Stop Monitoring or
disconnect) nothing is updated. -/
def onTaxiEvent (monitored : Option TaxiInfo) (evt : TaxiInfo) :
    Option TaxiInfo :=
  match monitored with
  | none => none
  | some t => if t.numberPlate = evt.numberPlate then some evt else some t

/-- Embedded from the passenger home screen source (`handleEndMonitoring`):
the monitored taxi is cleared. -/
def handleEndMonitoring (_monitored : Option TaxiInfo) : Option TaxiInfo :=
  none

/-- A user record as stored in the database; `password` is Some until the
projection that excludes it (auth middleware source). -/
structure User where
  id : String
  name : String
  password : Option String
deriving DecidableEq, Repr

/-- An incoming HTTP request as the auth middleware sees it: just the
optional Authorization header. -/
structure AuthReq where
  authorization : Option String
deriving DecidableEq, Repr

/-- Outcome of the middleware: a 401 response with a message, or the
downstream handler invoked with `req.user` set. -/
inductive AuthResult where
  | unauthorized (msg : String)
  | proceed (user : User)
deriving DecidableEq, Repr

/-- Splitting a character list on single spaces, embedding JavaScript's
`split(' ')` (adjacent separators yield empty fields). -/
def splitSp : List Char → List (List Char)
  | [] => [[]]
  | c :: t =>
    let r := splitSp t
    if c = ' ' then [] :: r
    else
      match r with
      | [] => [[c]]
      | h :: t' => (c :: h) :: t'

/-- The space-separated fields of a header value. -/
def headerParts (h : String) : List String :=
  (splitSp h.data).map String.mk

/-- Embedded from the auth middleware source: the token is
`req.headers.authorization?.split(' ')[1]`; a missing header, a missing
second field, or an empty (falsy) second field yield no token. -/
def tokenOf (req : AuthReq) : Option String :=
  match req.authorization with
  | none => none
  | some h =>
    match (headerParts h).get? 1 with
    | none => none
    | some tok => if tok = "" then none else some tok

/-- Embedded from the auth middleware source (`protect`): extract the token
(401 Unauthorized when absent), verify it (a thrown verification error is
caught as 401 Invalid token), load the user excluding the password field
(401 User not found when absent), then invoke the downstream handler. The
JWT verification and the user lookup are environment parameters. -/
def protect (verify : String → Option String)
    (findUser : String → Option User) (req : AuthReq) : AuthResult :=
  match tokenOf req with
  | none => .unauthorized "Unauthorized"
  | some tok =>
    match verify tok with
    | none => .unauthorized "Invalid token"
    | some uid =>
      match findUser uid with
      | none => .unauthorized "User not found"
      | some u => .proceed { u with password := none }

/-- Whether an Authorization header value carries a Bearer-scheme token,
the precondition named by the claim about the middleware. -/
def carriesBearerToken (h : String) : Bool :=
  startsWithL h.data ("Bearer ".data)

/-- Concrete pending ride request used by witnesses (spec section 8's
concrete scenario: Q1 is a ride from A to C on route R1). -/
def reqW : RideRequest :=
  { passenger := "p1", requestType := "ride", startingStop := "A",
    destinationStop := some "C", route := "R1", status := .pending,
    acceptingTaxi := none }

/-- Concrete available taxi used by witnesses (spec section 8's concrete
scenario: T1 is available, load 0 of 4, at stop A, assigned R1). -/
def taxiW : Taxi :=
  { route := some "R1", currentStop := "A", status := .available,
    load := 0, capacity := 4, driver := "d1" }

/-- Concrete taxi already at stop B, for the stop-order witness. -/
def taxiB : Taxi :=
  { route := some "R1", currentStop := "B", status := .available,
    load := 0, capacity := 4, driver := "d2" }

/-- Concrete system state for witnesses: route R1 = [A, B, C], pending ride
request Q1, available taxi T1 at A and taxi T2 at B. -/
def stW : SysState :=
  { routes := fun r => if r = "R1" then some ["A", "B", "C"] else none,
    requests := fun q => if q = "Q1" then some reqW else none,
    taxis := fun t =>
      if t = "T1" then some taxiW
      else if t = "T2" then some taxiB
      else none }

/-- Concrete full taxi at capacity, for the capacity counterexample. -/
def taxiFull : Taxi :=
  { route := some "R1", currentStop := "A", status := .full,
    load := 2, capacity := 2, driver := "d3" }

/-- Concrete pending pickup request, for the capacity counterexample. -/
def reqPickup : RideRequest :=
  { passenger := "p2", requestType := "pickup", startingStop := "A",
    destinationStop := none, route := "R1", status := .pending,
    acceptingTaxi := none }

/-- Concrete state for the capacity claims: pending pickup QP and pending
ride QR, taxi TP full at capacity. -/
def stC3 : SysState :=
  { routes := fun r => if r = "R1" then some ["A", "B", "C"] else none,
    requests := fun q =>
      if q = "QP" then some reqPickup
      else if q = "QR" then some { reqW with passenger := "p3" }
      else none,
    taxis := fun t => if t = "TP" then some taxiFull else none }

/-- Concrete state for the retry counterexample: capacity-one taxi TC and
pending ride QC. -/
def stCap : SysState :=
  { routes := fun r => if r = "R1" then some ["A", "B", "C"] else none,
    requests := fun q => if q = "QC" then some reqW else none,
    taxis := fun t =>
      if t = "TC" then some { taxiW with capacity := 1, driver := "d4" }
      else none }

/-- Concrete state for the pickup retry witness: capacity-one taxi TD and
pending pickup QD. -/
def stCapP : SysState :=
  { routes := fun r => if r = "R1" then some ["A", "B", "C"] else none,
    requests := fun q => if q = "QD" then some reqPickup else none,
    taxis := fun t =>
      if t = "TD" then some { taxiW with capacity := 1, driver := "d5" }
      else none }

/-- C1: the pending-to-accepted transition applies exactly when the request
is pending (returning AlreadyResolved otherwise, surfaced to the losing
driver as the Request Unavailable message), a request out of `pending` is
never modified again by an accept (so `acceptingTaxi` never changes once
set), and across any number of accept calls for the same request at most
one succeeds — exactly one as soon as some competing call passes
validation while the request is pending. -/
theorem claim1_at_most_one_accept :
    (∀ st q tid r, st.requests q = some r → r.status = .pending →
      (transitionPendingToAccepted st q tid).1 = .Applied ∧
      (transitionPendingToAccepted st q tid).2.requests q =
        some { r with status := .accepted, acceptingTaxi := some tid }) ∧
    (∀ st q tid r, st.requests q = some r → r.status ≠ .pending →
      transitionPendingToAccepted st q tid = (.AlreadyResolved, st)) ∧
    (∀ st q tid, st.requests q = none →
      transitionPendingToAccepted st q tid = (.NotFound, st)) ∧
    (∀ st q tid q' r', st.requests q' = some r' → r'.status ≠ .pending →
      (acceptRequest st q tid).2.requests q' = some r') ∧
    (∀ st q ts,
      ((runAccepts st q ts).1.countP (fun o => o == .Success)) ≤ 1) ∧
    (∀ st q ts r, st.requests q = some r → r.status = .pending →
      (∃ tid ∈ ts, passesValidation st q tid = true) →
      ((runAccepts st q ts).1.countP (fun o => o == .Success)) = 1) ∧
    acceptErrorDisplay 400 "Request is no longer pending" =
      ("Request Unavailable",
        "This request is no longer pending and cannot be accepted.") := by
  refine ⟨?_, ?_, ?_, ?_, ?_, ?_, by decide⟩
  · intro st q tid r h hp
    rw [trans_pending tid h hp]
    exact ⟨rfl, updFun_same _ _ _⟩
  · intro st q tid r h hp
    exact trans_nonpending tid h hp
  · intro st q tid h
    exact trans_none tid h
  · intro st q tid q' r' h hp
    exact acceptRequest_preserves_nonpending h hp
  · intro st q ts
    exact runAccepts_count_le_one q ts st
  · intro st q ts r h hp hex
    exact runAccepts_count_eq_one ts st ⟨r, h, hp⟩ hex

/-- Witness for C1 at the spec's concrete scenario: the transition applies
to pending Q1 recording T1, and running the competing accepts [T1, T2]
produces exactly one success. -/
theorem claim1_at_most_one_accept_witness :
    (transitionPendingToAccepted stW "Q1" "T1").1 = .Applied ∧
    (transitionPendingToAccepted stW "Q1" "T1").2.requests "Q1" =
      some { reqW with status := .accepted, acceptingTaxi := some "T1" } ∧
    ((runAccepts stW "Q1" ["T1", "T2"]).1.countP
      (fun o => o == .Success)) = 1 := by
  obtain ⟨c1, _, _, _, _, c6, _⟩ := claim1_at_most_one_accept
  obtain ⟨h1, h2⟩ := c1 stW "Q1" "T1" reqW (by decide) (by decide)
  exact ⟨h1, h2,
    c6 stW "Q1" ["T1", "T2"] reqW (by decide) (by decide)
      ⟨"T1", by decide, by decide⟩⟩

/-- C2: with the request and taxi present, the routes matching and the
availability policy passing, the accept fails StopAlreadyPassed exactly
when the starting stop's position on the route is strictly less than the
taxi's current stop position; and whenever it fails StopAlreadyPassed the
positions resolved by the route catalog satisfy that strict inequality. -/
theorem claim2_stop_order_guard :
    (∀ st q tid req taxi stops ps pc,
      st.requests q = some req → st.taxis tid = some taxi →
      taxi.route = some req.route →
      availabilityCheck taxi req.requestType = none →
      st.routes req.route = some stops →
      stopPos stops req.startingStop = some ps →
      stopPos stops taxi.currentStop = some pc →
      ((acceptRequest st q tid).1 = .StopAlreadyPassed ↔ ps < pc)) ∧
    (∀ st q tid req taxi stops ps pc,
      st.requests q = some req → st.taxis tid = some taxi →
      st.routes req.route = some stops →
      stopPos stops req.startingStop = some ps →
      stopPos stops taxi.currentStop = some pc →
      (acceptRequest st q tid).1 = .StopAlreadyPassed → ps < pc) := by
  constructor
  · intro st q tid req taxi stops ps pc hreq htaxi hroute ha hs hp1 hp2
    rcases acceptRequest_outcome_char hreq htaxi with
      ⟨hv, _, ho⟩ | ⟨hv, _, ho⟩ | ⟨o, hvo, ho⟩
    · rw [ho]
      obtain ⟨_, _, ⟨stops', ps', pc', hs', hp1', hp2', hlt'⟩, _⟩ :=
        validateAccept_none_iff.mp hv
      rw [hs] at hs'; cases hs'
      rw [hp1] at hp1'; cases hp1'
      rw [hp2] at hp2'; cases hp2'
      simp [hlt']
    · rw [ho]
      obtain ⟨_, _, ⟨stops', ps', pc', hs', hp1', hp2', hlt'⟩, _⟩ :=
        validateAccept_none_iff.mp hv
      rw [hs] at hs'; cases hs'
      rw [hp1] at hp1'; cases hp1'
      rw [hp2] at hp2'; cases hp2'
      simp [hlt']
    · rw [ho]
      constructor
      · intro h
        subst h
        exact validateAccept_stop_implies hs hp1 hp2 hvo
      · intro h
        have := (validateAccept_stop_iff hroute ha hs hp1 hp2).mpr h
        rw [hvo] at this
        exact (Option.some.injEq _ _).mp this
  · intro st q tid req taxi stops ps pc hreq htaxi hs hp1 hp2 h
    rcases acceptRequest_outcome_char hreq htaxi with
      ⟨_, _, ho⟩ | ⟨_, _, ho⟩ | ⟨o, hvo, ho⟩
    · rw [ho] at h; exact absurd h (by decide)
    · rw [ho] at h; exact absurd h (by decide)
    · rw [ho] at h
      subst h
      exact validateAccept_stop_implies hs hp1 hp2 hvo

/-- Witness for C2 at the spec's concrete scenario: taxi T2 at B(1) accepts
a request starting at A(0) and fails StopAlreadyPassed, with 0 < 1; taxi
T1 at A(0) does not fail StopAlreadyPassed. -/
theorem claim2_stop_order_guard_witness :
    (acceptRequest stW "Q1" "T2").1 = .StopAlreadyPassed ∧
    ¬ (acceptRequest stW "Q1" "T1").1 = .StopAlreadyPassed := by
  obtain ⟨c1, _⟩ := claim2_stop_order_guard
  constructor
  · exact (c1 stW "Q1" "T2" reqW taxiB ["A", "B", "C"] 0 1 (by decide)
      (by decide) (by decide) (by decide) (by decide) (by decide)
      (by decide)).mpr (by decide)
  · intro h
    have := (c1 stW "Q1" "T1" reqW taxiW ["A", "B", "C"] 0 0 (by decide)
      (by decide) (by decide) (by decide) (by decide) (by decide)
      (by decide)).mp h
    exact absurd this (by decide)

/-- C3 counterexample: a pickup accept on a taxi already at capacity is a
would-exceed accept, yet it fails with TaxiNotAvailableForPickup, not with
TaxiNotAvailable as the claim states (the state is left unmutated). -/
theorem claim3_counterexample :
    stC3.requests "QP" = some reqPickup ∧
    reqPickup.requestType = "pickup" ∧
    stC3.taxis "TP" = some taxiFull ∧
    taxiFull.capacity ≤ taxiFull.load ∧
    (acceptRequest stC3 "QP" "TP").1 = .TaxiNotAvailableForPickup ∧
    (acceptRequest stC3 "QP" "TP").1 ≠ .TaxiNotAvailable := by
  refine ⟨by decide, by decide, by decide, by decide, by decide, by decide⟩

/-- C3 amended: across any sequence of accept operations every taxi's load
stays at most its capacity; an accept that would push the load past
capacity fails before any mutation — with TaxiNotAvailable for a ride
request and TaxiNotAvailableForPickup for a pickup request — and a
successful accept that brings the load up to capacity flips the status to
full. -/
theorem claim3_capacity_invariant :
    (∀ st calls, loadsOk st → loadsOk (runAll st calls)) ∧
    (∀ st q tid req taxi, st.requests q = some req →
      req.requestType = "ride" → st.taxis tid = some taxi →
      taxi.capacity ≤ taxi.load → taxi.route = some req.route →
      acceptRequest st q tid = (.TaxiNotAvailable, st)) ∧
    (∀ st q tid req taxi, st.requests q = some req →
      req.requestType = "pickup" → st.taxis tid = some taxi →
      taxi.capacity ≤ taxi.load → taxi.route = some req.route →
      acceptRequest st q tid = (.TaxiNotAvailableForPickup, st)) ∧
    (∀ st q tid, (acceptRequest st q tid).1 = .Success →
      ∀ t', (acceptRequest st q tid).2.taxis tid = some t' →
        t'.load = t'.capacity → t'.status = .full) := by
  refine ⟨?_, ?_, ?_, ?_⟩
  · intro st calls h
    exact runAll_loadsOk h calls
  · intro st q tid req taxi hreq hty htaxi hcap hroute
    exact accept_at_capacity_ride hreq hty htaxi hcap hroute
  · intro st q tid req taxi hreq hty htaxi hcap hroute
    exact accept_at_capacity_pickup hreq hty htaxi hcap hroute
  · intro st q tid hS
    exact accept_success_full hS

/-- Witness for C3: a ride accept on the at-capacity taxi TP fails
TaxiNotAvailable without mutation, and after the successful run of the
single accept (Q1, T1) the updated taxi still satisfies the capacity
bound. -/
theorem claim3_capacity_invariant_witness :
    acceptRequest stC3 "QR" "TP" = (.TaxiNotAvailable, stC3) ∧
    (runAll stW [("Q1", "T1")]).taxis "T1" = some (incLoad taxiW) ∧
    (incLoad taxiW).load ≤ (incLoad taxiW).capacity := by
  obtain ⟨c1, c2, _, _⟩ := claim3_capacity_invariant
  refine ⟨c2 stC3 "QR" "TP" { reqW with passenger := "p3" } taxiFull
    (by decide) (by decide) (by decide) (by decide) (by decide),
    by decide, ?_⟩
  have hok : loadsOk stW := by
    intro tid t h
    by_cases h1 : tid = "T1"
    · subst h1
      rw [show stW.taxis "T1" = some taxiW from rfl] at h
      cases h
      decide
    · by_cases h2 : tid = "T2"
      · subst h2
        rw [show stW.taxis "T2" = some taxiB from rfl] at h
        cases h
        decide
      · rw [show stW.taxis tid = none by simp [stW, h1, h2]] at h
        cases h
  exact c1 stW [("Q1", "T1")] hok "T1" (incLoad taxiW) (by decide)

/-- C4 counterexample: on a capacity-one taxi the first accept succeeds and
flips the taxi to full, so the sequential retry fails the availability
check with TaxiNotAvailable instead of the claimed RequestUnavailable. -/
theorem claim4_counterexample :
    (acceptRequest stCap "QC" "TC").1 = .Success ∧
    (acceptRequest (acceptRequest stCap "QC" "TC").2 "QC" "TC").1 =
      .TaxiNotAvailable ∧
    (acceptRequest (acceptRequest stCap "QC" "TC").2 "QC" "TC").1 ≠
      .RequestUnavailable := by
  refine ⟨by decide, by decide, by decide⟩

/-- C4 amended: when an accept call succeeds, repeating the same call
performs no state mutation; the retry returns RequestUnavailable whenever
the taxi is still below capacity after the first accept, and when the
first accept filled the taxi to capacity the retry instead fails the
step-4 availability check — TaxiNotAvailable for a ride request and
TaxiNotAvailableForPickup for a pickup request. -/
theorem claim4_idempotent_retry :
    ∀ st q tid, (acceptRequest st q tid).1 = .Success →
      (acceptRequest (acceptRequest st q tid).2 q tid).2 =
        (acceptRequest st q tid).2 ∧
      (∀ t1, (acceptRequest st q tid).2.taxis tid = some t1 →
        t1.load < t1.capacity →
        (acceptRequest (acceptRequest st q tid).2 q tid).1 =
          .RequestUnavailable) ∧
      (∀ r t1, st.requests q = some r →
        (acceptRequest st q tid).2.taxis tid = some t1 →
        t1.capacity ≤ t1.load → r.requestType = "ride" →
        (acceptRequest (acceptRequest st q tid).2 q tid).1 =
          .TaxiNotAvailable) ∧
      (∀ r t1, st.requests q = some r →
        (acceptRequest st q tid).2.taxis tid = some t1 →
        t1.capacity ≤ t1.load → r.requestType = "pickup" →
        (acceptRequest (acceptRequest st q tid).2 q tid).1 =
          .TaxiNotAvailableForPickup) := by
  intro st q tid hS
  obtain ⟨req, taxi, hreq, htaxi, hp, hv, hst⟩ :=
    acceptRequest_success_state hS
  have hreq1 : (acceptRequest st q tid).2.requests q =
      some { req with status := .accepted, acceptingTaxi := some tid } := by
    rw [hst]; exact updFun_same _ _ _
  have htaxi1 : (acceptRequest st q tid).2.taxis tid =
      some (incLoad taxi) := by
    rw [hst]; exact updFun_same _ _ _
  have hroutes1 : (acceptRequest st q tid).2.routes = st.routes := by
    rw [hst]
  have hvr : validateAccept (acceptRequest st q tid).2
      { req with status := .accepted, acceptingTaxi := some tid }
      (incLoad taxi) =
      availabilityCheck (incLoad taxi)
        ({ req with status := .accepted, acceptingTaxi := some tid } :
          RideRequest).requestType :=
    validateAccept_same_fields hv hroutes1 rfl rfl rfl rfl rfl
  have hnp : ({ req with status := .accepted, acceptingTaxi := some tid } :
      RideRequest).status ≠ .pending := by simp
  obtain ⟨h1, _, h3⟩ := acceptRequest_retry_core hreq1 htaxi1 hnp hvr
  obtain ⟨_, ha, _, hty⟩ := validateAccept_none_iff.mp hv
  refine ⟨h1, ?_, ?_, ?_⟩
  · intro t1 ht1 hlt
    rw [htaxi1] at ht1
    cases ht1
    exact h3 (availabilityCheck_incLoad_none ha hty hlt)
  · intro r t1 hr ht1 hcap htyR
    rw [hreq] at hr
    cases hr
    rw [htaxi1] at ht1
    cases ht1
    have hA : availabilityCheck (incLoad taxi)
        ({ req with status := .accepted, acceptingTaxi := some tid } :
          RideRequest).requestType = some .TaxiNotAvailable := by
      show availabilityCheck (incLoad taxi) req.requestType =
        some .TaxiNotAvailable
      rw [htyR]
      exact availabilityCheck_at_capacity_ride hcap
    have hvr2 := hvr.trans hA
    rw [acceptRequest_of_validate_some hreq1 htaxi1 hvr2]
  · intro r t1 hr ht1 hcap htyP
    rw [hreq] at hr
    cases hr
    rw [htaxi1] at ht1
    cases ht1
    have hA : availabilityCheck (incLoad taxi)
        ({ req with status := .accepted, acceptingTaxi := some tid } :
          RideRequest).requestType = some .TaxiNotAvailableForPickup := by
      show availabilityCheck (incLoad taxi) req.requestType =
        some .TaxiNotAvailableForPickup
      rw [htyP]
      exact availabilityCheck_at_capacity_pickup hcap
    have hvr2 := hvr.trans hA
    rw [acceptRequest_of_validate_some hreq1 htaxi1 hvr2]

/-- Witness for C4: after T1 successfully accepts Q1, retrying yields
RequestUnavailable with no state change; on the capacity-one taxis, the
ride retry yields TaxiNotAvailable and the pickup retry yields
TaxiNotAvailableForPickup. -/
theorem claim4_idempotent_retry_witness :
    (acceptRequest (acceptRequest stW "Q1" "T1").2 "Q1" "T1").1 =
      .RequestUnavailable ∧
    (acceptRequest (acceptRequest stW "Q1" "T1").2 "Q1" "T1").2 =
      (acceptRequest stW "Q1" "T1").2 ∧
    (acceptRequest (acceptRequest stCap "QC" "TC").2 "QC" "TC").1 =
      .TaxiNotAvailable ∧
    (acceptRequest (acceptRequest stCapP "QD" "TD").2 "QD" "TD").1 =
      .TaxiNotAvailableForPickup := by
  obtain ⟨h1, h2, _, _⟩ := claim4_idempotent_retry stW "Q1" "T1" (by decide)
  obtain ⟨_, _, h3, _⟩ :=
    claim4_idempotent_retry stCap "QC" "TC" (by decide)
  obtain ⟨_, _, _, h4⟩ :=
    claim4_idempotent_retry stCapP "QD" "TD" (by decide)
  exact ⟨h2 (incLoad taxiW) (by decide) (by decide), h1,
    h3 reqW (incLoad { taxiW with capacity := 1, driver := "d4" })
      (by decide) (by decide) (by decide) (by decide),
    h4 reqPickup (incLoad { taxiW with capacity := 1, driver := "d5" })
      (by decide) (by decide) (by decide) (by decide)⟩

theorem validateAccept_unsupported_iff {st : SysState} {req : RideRequest}
    {taxi : Taxi} {stops : List String} {ps pc : Nat}
    (hroute : taxi.route = some req.route)
    (ha : availabilityCheck taxi req.requestType = none)
    (hs : st.routes req.route = some stops)
    (hp1 : stopPos stops req.startingStop = some ps)
    (hp2 : stopPos stops taxi.currentStop = some pc)
    (hlt : ¬ ps < pc) :
    (validateAccept st req taxi = some .UnsupportedRequestType ↔
      (req.requestType ≠ "ride" ∧ req.requestType ≠ "pickup")) := by
  unfold validateAccept
  rw [if_neg (not_not_intro hroute)]
  simp only [ha, hs, hp1, hp2, hlt, if_false]
  constructor
  · intro h
    split at h
    · assumption
    · exact absurd h (by simp)
  · intro h
    rw [if_pos h]

/-- C5: the accept protocol performs its checks in the documented order —
each named failure implies every earlier check passed: RequestNotFound
exactly on a missing request; TaxiNotFound exactly on a present request
and missing taxi; with both present, RouteMismatch exactly on a route
mismatch; with matching routes, the availability outcomes exactly mirror
the step-4 policy; after availability and the stop check,
UnsupportedRequestType exactly on a type outside ride/pickup; with all
validation passed, the call succeeds exactly on a pending request and
returns RequestUnavailable exactly otherwise; and every outcome other than
Success leaves the state unmutated. -/
theorem claim5_check_order :
    (∀ st q tid, (acceptRequest st q tid).1 ≠ .Success →
      (acceptRequest st q tid).2 = st) ∧
    (∀ st q tid, (acceptRequest st q tid).1 = .RequestNotFound ↔
      st.requests q = none) ∧
    (∀ st q tid, (acceptRequest st q tid).1 = .TaxiNotFound ↔
      (st.requests q).isSome ∧ st.taxis tid = none) ∧
    (∀ st q tid req taxi, st.requests q = some req →
      st.taxis tid = some taxi →
      ((acceptRequest st q tid).1 = .RouteMismatch ↔
        taxi.route ≠ some req.route)) ∧
    (∀ st q tid req taxi o, st.requests q = some req →
      st.taxis tid = some taxi → taxi.route = some req.route →
      (o = .TaxiNotAvailable ∨ o = .TaxiNotAvailableForPickup) →
      ((acceptRequest st q tid).1 = o ↔
        availabilityCheck taxi req.requestType = some o)) ∧
    (∀ st q tid req taxi stops ps pc, st.requests q = some req →
      st.taxis tid = some taxi → taxi.route = some req.route →
      availabilityCheck taxi req.requestType = none →
      st.routes req.route = some stops →
      stopPos stops req.startingStop = some ps →
      stopPos stops taxi.currentStop = some pc → ¬ ps < pc →
      ((acceptRequest st q tid).1 = .UnsupportedRequestType ↔
        (req.requestType ≠ "ride" ∧ req.requestType ≠ "pickup"))) ∧
    (∀ st q tid req taxi, st.requests q = some req →
      st.taxis tid = some taxi → validateAccept st req taxi = none →
      (((acceptRequest st q tid).1 = .Success ↔ req.status = .pending) ∧
       ((acceptRequest st q tid).1 = .RequestUnavailable ↔
         req.status ≠ .pending))) := by
  refine ⟨?_, ?_, ?_, ?_, ?_, ?_, ?_⟩
  · intro st q tid h
    exact acceptRequest_fail_state h
  · intro st q tid
    exact acceptRequest_reqnotfound_iff
  · intro st q tid
    exact acceptRequest_taxinotfound_iff
  · intro st q tid req taxi hreq htaxi
    rcases acceptRequest_outcome_char hreq htaxi with
      ⟨hv, _, ho⟩ | ⟨hv, _, ho⟩ | ⟨o, hvo, ho⟩
    · rw [ho]
      obtain ⟨hr, _, _, _⟩ := validateAccept_none_iff.mp hv
      simp [hr]
    · rw [ho]
      obtain ⟨hr, _, _, _⟩ := validateAccept_none_iff.mp hv
      simp [hr]
    · rw [ho]
      constructor
      · intro h
        subst h
        exact validateAccept_routemismatch_iff.mp hvo
      · intro h
        have hvm := (@validateAccept_routemismatch_iff st req taxi).mpr h
        rw [hvo] at hvm
        exact (Option.some.injEq _ _).mp hvm
  · intro st q tid req taxi o hreq htaxi hroute hone
    rcases acceptRequest_outcome_char hreq htaxi with
      ⟨hv, _, ho⟩ | ⟨hv, _, ho⟩ | ⟨o', hvo, ho⟩
    · rw [ho]
      obtain ⟨_, ha, _, _⟩ := validateAccept_none_iff.mp hv
      constructor
      · intro h
        exact absurd h.symm (by rcases hone with rfl | rfl <;> decide)
      · intro h
        rw [ha] at h
        exact absurd h (by simp)
    · rw [ho]
      obtain ⟨_, ha, _, _⟩ := validateAccept_none_iff.mp hv
      constructor
      · intro h
        exact absurd h.symm (by rcases hone with rfl | rfl <;> decide)
      · intro h
        rw [ha] at h
        exact absurd h (by simp)
    · rw [ho]
      constructor
      · intro h
        subst h
        exact (validateAccept_avail_eq hroute hone).mp hvo
      · intro h
        have hva := (@validateAccept_avail_eq st req taxi o hroute hone).mpr h
        rw [hvo] at hva
        exact (Option.some.injEq _ _).mp hva
  · intro st q tid req taxi stops ps pc hreq htaxi hroute ha hs hp1 hp2 hlt
    rcases acceptRequest_outcome_char hreq htaxi with
      ⟨hv, _, ho⟩ | ⟨hv, _, ho⟩ | ⟨o', hvo, ho⟩
    · rw [ho]
      obtain ⟨_, _, _, hty⟩ := validateAccept_none_iff.mp hv
      constructor
      · intro h
        exact absurd h (by decide)
      · rintro ⟨h1, h2⟩
        rcases hty with h | h
        · exact absurd h h1
        · exact absurd h h2
    · rw [ho]
      obtain ⟨_, _, _, hty⟩ := validateAccept_none_iff.mp hv
      constructor
      · intro h
        exact absurd h (by decide)
      · rintro ⟨h1, h2⟩
        rcases hty with h | h
        · exact absurd h h1
        · exact absurd h h2
    · rw [ho]
      constructor
      · intro h
        subst h
        exact (validateAccept_unsupported_iff hroute ha hs hp1 hp2 hlt).mp
          hvo
      · intro h
        have := (validateAccept_unsupported_iff hroute ha hs hp1 hp2
          hlt).mpr h
        rw [hvo] at this
        exact (Option.some.injEq _ _).mp this
  · intro st q tid req taxi hreq htaxi hv
    rcases acceptRequest_outcome_char hreq htaxi with
      ⟨_, hp, ho⟩ | ⟨_, hp, ho⟩ | ⟨o', hvo, _⟩
    · rw [ho]
      constructor
      · constructor
        · intro _; exact hp
        · intro _; rfl
      · constructor
        · intro h; exact absurd h (by decide)
        · intro h; exact absurd hp h
    · rw [ho]
      constructor
      · constructor
        · intro h; exact absurd h (by decide)
        · intro h; exact absurd h hp
      · constructor
        · intro _; exact hp
        · intro _; rfl
    · rw [hv] at hvo
      exact absurd hvo (by simp)

/-- Witness for C5: accepting pending Q1 with the unknown taxi T9 fails
TaxiNotFound and leaves the state unchanged, while the fully validated
accept of Q1 by T1 succeeds. -/
theorem claim5_check_order_witness :
    (acceptRequest stW "Q1" "T9").1 = .TaxiNotFound ∧
    (acceptRequest stW "Q1" "T9").2 = stW ∧
    (acceptRequest stW "Q1" "T1").1 = .Success := by
  obtain ⟨c1, _, c3, _, _, _, c7⟩ := claim5_check_order
  refine ⟨(c3 stW "Q1" "T9").mpr ⟨by decide, by decide⟩,
    c1 stW "Q1" "T9" (by decide), ?_⟩
  exact ((c7 stW "Q1" "T1" reqW taxiW (by decide) (by decide)
    (by decide)).1).mpr (by decide)

/-- C6: the driver client maps each of the eight named accept outcomes,
through its message-matching cascade applied to the backend's message for
that outcome, to a distinct (title, message) modal pair. -/
theorem claim6_distinct_messages :
    ∀ o1 ∈ namedFailures, ∀ o2 ∈ namedFailures, o1 ≠ o2 →
      acceptErrorDisplay 400 (canonicalServerMessage o1) ≠
        acceptErrorDisplay 400 (canonicalServerMessage o2) := by decide

/-- Witness for C6: the two availability outcomes share a title but still
produce distinct modal pairs. -/
theorem claim6_distinct_messages_witness :
    acceptErrorDisplay 400 (canonicalServerMessage .TaxiNotAvailable) ≠
      acceptErrorDisplay 400
        (canonicalServerMessage .TaxiNotAvailableForPickup) :=
  claim6_distinct_messages .TaxiNotAvailable (by decide)
    .TaxiNotAvailableForPickup (by decide) (by decide)

/-- C7: a taxi-state event replaces the monitored-taxi display exactly when
its number plate equals the monitored taxi's; events for any other plate
leave the display unchanged; and once monitoring has ended (or the
connection is gone) no sequence of events ever updates the display. -/
theorem claim7_monitoring_updates :
    (∀ t evt : TaxiInfo, t.numberPlate ≠ evt.numberPlate →
      onTaxiEvent (some t) evt = some t) ∧
    (∀ t evt : TaxiInfo, onTaxiEvent (some t) evt ≠ some t →
      evt.numberPlate = t.numberPlate) ∧
    (∀ t evt : TaxiInfo, t.numberPlate = evt.numberPlate →
      onTaxiEvent (some t) evt = some evt) ∧
    (∀ (m : Option TaxiInfo) (evts : List TaxiInfo),
      evts.foldl onTaxiEvent (handleEndMonitoring m) = none) := by
  refine ⟨?_, ?_, ?_, ?_⟩
  · intro t evt h
    show (if t.numberPlate = evt.numberPlate then some evt else some t) =
      some t
    rw [if_neg h]
  · intro t evt h
    by_contra hne
    apply h
    show (if t.numberPlate = evt.numberPlate then some evt else some t) =
      some t
    rw [if_neg (fun he => hne (Eq.symm he))]
  · intro t evt h
    show (if t.numberPlate = evt.numberPlate then some evt else some t) =
      some evt
    rw [if_pos h]
  · intro m evts
    show evts.foldl onTaxiEvent none = none
    induction evts with
    | nil => rfl
    | cons e es ih => exact ih

/-- Concrete monitored-taxi snapshot for the C7 witness. -/
def tiA : TaxiInfo :=
  { numberPlate := "CA 123", status := "available", currentStop := "A",
    currentLoad := 1, routeName := "R1", nextStop := "B",
    driverUsername := "d1" }

/-- Concrete event snapshot from a different taxi for the C7 witness. -/
def tiB : TaxiInfo :=
  { numberPlate := "CA 999", status := "full", currentStop := "B",
    currentLoad := 4, routeName := "R1", nextStop := "C",
    driverUsername := "d2" }

/-- Witness for C7: an event from the other plate leaves the display on the
monitored taxi, an event from the monitored plate replaces it, and after
ending monitoring a batch of events leaves the display empty. -/
theorem claim7_monitoring_updates_witness :
    onTaxiEvent (some tiA) tiB = some tiA ∧
    onTaxiEvent (some tiA) { tiB with numberPlate := "CA 123" } =
      some { tiB with numberPlate := "CA 123" } ∧
    [tiB, tiA].foldl onTaxiEvent (handleEndMonitoring (some tiA)) =
      none := by
  obtain ⟨c1, _, c3, c4⟩ := claim7_monitoring_updates
  exact ⟨c1 tiA tiB (by decide),
    c3 tiA { tiB with numberPlate := "CA 123" } (by decide),
    c4 (some tiA) [tiB, tiA]⟩

/-- Concrete JWT verifier for the middleware witnesses: accepts exactly the
token tok123, resolving it to user id u1. -/
def verifyW : String → Option String :=
  fun s => if s = "tok123" then some "u1" else none

/-- Concrete stored user for the middleware witnesses. -/
def userW : User := { id := "u1", name := "Thabo", password := some "secret" }

/-- Concrete user lookup for the middleware witnesses. -/
def findUserW : String → Option User :=
  fun uid => if uid = "u1" then some userW else none

/-- C8 counterexample: the middleware never checks the Authorization scheme,
so a header using the Basic scheme whose second field happens to be a valid
token still reaches the downstream handler, although the header carries no
Bearer token. -/
theorem claim8_counterexample :
    protect verifyW findUserW { authorization := some "Basic tok123" } =
      .proceed { id := "u1", name := "Thabo", password := none } ∧
    carriesBearerToken "Basic tok123" = false := by
  refine ⟨by decide, by decide⟩

/-- C8 amended: the middleware invokes the downstream handler exactly when
the second space-separated field of the Authorization header is a nonempty
token that verifies and resolves to an existing user — the scheme word
itself is never validated; in every other case it responds 401 (with the
Unauthorized, Invalid token, or User not found message), and whenever the
handler runs, req.user is the resolved user with the password field
excluded. -/
theorem claim8_auth_middleware :
    (∀ v f req, tokenOf req = none →
      protect v f req = .unauthorized "Unauthorized") ∧
    (∀ v f req tok, tokenOf req = some tok → v tok = none →
      protect v f req = .unauthorized "Invalid token") ∧
    (∀ v f req tok uid, tokenOf req = some tok → v tok = some uid →
      f uid = none → protect v f req = .unauthorized "User not found") ∧
    (∀ v f req tok uid usr, tokenOf req = some tok → v tok = some uid →
      f uid = some usr →
      protect v f req = .proceed { usr with password := none }) ∧
    (∀ v f req u, protect v f req = .proceed u → u.password = none) ∧
    (∀ v f req u, protect v f req = .proceed u →
      ∃ tok uid usr, tokenOf req = some tok ∧ v tok = some uid ∧
        f uid = some usr ∧ u = { usr with password := none }) := by
  refine ⟨?_, ?_, ?_, ?_, ?_, ?_⟩
  · intro v f req h
    unfold protect
    simp only [h]
  · intro v f req tok h hv
    unfold protect
    simp only [h, hv]
  · intro v f req tok uid h hv hf
    unfold protect
    simp only [h, hv, hf]
  · intro v f req tok uid usr h hv hf
    unfold protect
    simp only [h, hv, hf]
  · intro v f req u h
    unfold protect at h
    cases ht : tokenOf req with
    | none =>
      simp only [ht] at h
      exact AuthResult.noConfusion h
    | some tok =>
      simp only [ht] at h
      cases hv : v tok with
      | none =>
        simp only [hv] at h
        exact AuthResult.noConfusion h
      | some uid =>
        simp only [hv] at h
        cases hf : f uid with
        | none =>
          simp only [hf] at h
          exact AuthResult.noConfusion h
        | some usr =>
          simp only [hf] at h
          cases h
          rfl
  · intro v f req u h
    unfold protect at h
    cases ht : tokenOf req with
    | none =>
      simp only [ht] at h
      exact AuthResult.noConfusion h
    | some tok =>
      simp only [ht] at h
      cases hv : v tok with
      | none =>
        simp only [hv] at h
        exact AuthResult.noConfusion h
      | some uid =>
        simp only [hv] at h
        cases hf : f uid with
        | none =>
          simp only [hf] at h
          exact AuthResult.noConfusion h
        | some usr =>
          simp only [hf] at h
          cases h
          exact ⟨tok, uid, usr, rfl, hv, hf, rfl⟩

/-- Witness for C8: a proper Bearer header with the valid token reaches the
handler with the password stripped, and a missing header yields 401
Unauthorized. -/
theorem claim8_auth_middleware_witness :
    protect verifyW findUserW { authorization := some "Bearer tok123" } =
      .proceed { id := "u1", name := "Thabo", password := none } ∧
    protect verifyW findUserW { authorization := none } =
      .unauthorized "Unauthorized" := by
  obtain ⟨c1, _, _, c4, _, _⟩ := claim8_auth_middleware
  constructor
  · have h := c4 verifyW findUserW
      { authorization := some "Bearer tok123" } "tok123" "u1" userW
      (by decide) (by decide) (by decide)
    exact h
  · exact c1 verifyW findUserW { authorization := none } (by decide)

theorem filterNe_eq_of_count_zero (i : String) :
    ∀ l : List ClientRequest, l.countP (fun r => r.id == i) = 0 →
      l.filter (fun r => r.id != i) = l := by
  intro l
  induction l with
  | nil => intro _; rfl
  | cons r t ih =>
    intro h
    rw [List.countP_cons] at h
    cases hb : (r.id == i) with
    | true => simp [hb] at h
    | false =>
      simp only [hb] at h
      have ht : t.countP (fun r => r.id == i) = 0 := by
        simpa using h
      have hkeep : (r.id != i) = true := by
        simp only [bne, hb, Bool.not_false]
      simp [List.filter_cons, hkeep, ih ht]

theorem filterNe_length_of_count_one (i : String) :
    ∀ l : List ClientRequest, l.countP (fun r => r.id == i) = 1 →
      (l.filter (fun r => r.id != i)).length + 1 = l.length := by
  intro l
  induction l with
  | nil => intro h; simp at h
  | cons r t ih =>
    intro h
    rw [List.countP_cons] at h
    cases hb : (r.id == i) with
    | true =>
      simp only [hb] at h
      have ht : t.countP (fun r => r.id == i) = 0 := by
        simpa using h
      have hdrop : (r.id != i) = false := by
        simp only [bne, hb, Bool.not_true]
      simp [List.filter_cons, hdrop, filterNe_eq_of_count_zero i t ht]
    | false =>
      simp only [hb] at h
      have ht : t.countP (fun r => r.id == i) = 1 := by
        simpa using h
      have hkeep : (r.id != i) = true := by
        simp only [bne, hb, Bool.not_false]
      have hlen := ih ht
      simp only [List.filter_cons, hkeep, if_true, List.length_cons]
      omega

/-- Concrete displayed request for the driver-screen witnesses. -/
def rqA : ClientRequest :=
  { id := "q1", passenger := "p1", startingStop := "A",
    destinationStop := "C", requestType := "ride", status := "pending" }

/-- Second concrete displayed request for the driver-screen witnesses. -/
def rqB : ClientRequest :=
  { id := "q2", passenger := "p2", startingStop := "B",
    destinationStop := "C", requestType := "pickup", status := "pending" }

/-- Concrete driver screen state for the witnesses. -/
def stScr : ScreenState :=
  { requests := [rqA, rqB], isAccepting := none, errorShown := none }

/-- C9 counterexample: on the non-success reply carrying the
request-is-no-longer-pending message the handler triggers a list refresh,
which replaces the list with the server's data — here removing the entry —
so a non-success response does remove entries from the list. -/
theorem claim9_counterexample :
    rqA ∈ stScr.requests ∧
    AcceptResp.err 400 (some "Request is no longer pending") ≠ .ok ∧
    (runHandleAccept "q1" (some "tok")
      (.err 400 (some "Request is no longer pending")) (some [])
      stScr).requests = [] := by
  refine ⟨by decide, by decide, by decide⟩

/-- C9 amended: on a success reply the handler removes exactly the entry
with the accepted request's id (every other entry is kept, in order, and
with a unique id the list shrinks by exactly one); on a non-success reply
the handler itself filters nothing — a missing token, an unparseable
reply, a network failure, or an error message outside the two
refresh-triggering categories leave the list unchanged, while the
request-no-longer-pending and stop-already-passed errors replace the list
with the refetched server data (empty when the refetch fails). -/
theorem claim9_list_update :
    (∀ rid tokv rd st r, r ∈ st.requests → r.id ≠ rid →
      r ∈ (runHandleAccept rid (some tokv) .ok rd st).requests) ∧
    (∀ rid tokv rd st,
      (runHandleAccept rid (some tokv) .ok rd st).requests.Sublist
        st.requests) ∧
    (∀ rid tokv rd st r,
      r ∈ (runHandleAccept rid (some tokv) .ok rd st).requests →
      r.id ≠ rid) ∧
    (∀ rid tokv rd st,
      st.requests.countP (fun r => r.id == rid) = 1 →
      (runHandleAccept rid (some tokv) .ok rd st).requests.length + 1 =
        st.requests.length) ∧
    (∀ rid resp rd st,
      (runHandleAccept rid none resp rd st).requests = st.requests) ∧
    (∀ rid tokv status rd st,
      (runHandleAccept rid (some tokv) (.errRaw status) rd st).requests =
        st.requests) ∧
    (∀ rid tokv msg rd st,
      (runHandleAccept rid (some tokv) (.netfail msg) rd st).requests =
        st.requests) ∧
    (∀ rid tokv status serr rd st,
      (acceptErrorAction status (serr.getD
        ("Server responded with status " ++ toString status ++ "."))).2 =
          false →
      (runHandleAccept rid (some tokv) (.err status serr) rd st).requests =
        st.requests) ∧
    (∀ rid tokv status serr rd st,
      (acceptErrorAction status (serr.getD
        ("Server responded with status " ++ toString status ++ "."))).2 =
          true →
      (runHandleAccept rid (some tokv) (.err status serr) rd st).requests =
        rd.getD []) := by
  refine ⟨?_, ?_, ?_, ?_, ?_, ?_, ?_, ?_, ?_⟩
  · intro rid tokv rd st r hmem hne
    show r ∈ st.requests.filter (fun r0 => r0.id != rid)
    exact List.mem_filter.mpr ⟨hmem, by simpa [bne_iff_ne] using hne⟩
  · intro rid tokv rd st
    show (st.requests.filter (fun r0 => r0.id != rid)).Sublist st.requests
    exact List.filter_sublist _
  · intro rid tokv rd st r hmem
    have := List.mem_filter.mp hmem
    exact bne_iff_ne.mp this.2
  · intro rid tokv rd st h
    show (st.requests.filter (fun r0 => r0.id != rid)).length + 1 =
      st.requests.length
    exact filterNe_length_of_count_one rid st.requests h
  · intro rid resp rd st
    rfl
  · intro rid tokv status rd st
    rfl
  · intro rid tokv msg rd st
    by_cases hC : strHasSub msg "Network request failed" = true
    · simp [runHandleAccept, hC]
    · simp [runHandleAccept, hC]
  · intro rid tokv status serr rd st hflag
    simp [runHandleAccept, hflag]
  · intro rid tokv status serr rd st hflag
    simp [runHandleAccept, hflag]

/-- Witness for C9: accepting q1 keeps q2 (the only other entry) and
shrinks the two-element list by exactly one, and a network failure leaves
the list unchanged. -/
theorem claim9_list_update_witness :
    rqB ∈ (runHandleAccept "q1" (some "tok") .ok none stScr).requests ∧
    (runHandleAccept "q1" (some "tok") .ok none stScr).requests.length + 1 =
      stScr.requests.length ∧
    (runHandleAccept "q1" (some "tok")
      (.netfail "Network request failed") none stScr).requests =
      stScr.requests := by
  obtain ⟨c1, _, _, c4, _, _, c7, _, _⟩ := claim9_list_update
  exact ⟨c1 "q1" "tok" none stScr rqB (by decide) (by decide),
    c4 "q1" "tok" none stScr (by decide),
    c7 "q1" "tok" "Network request failed" none stScr⟩

/-- C10: while an accept call is in flight (isAccepting holds some request
id) every Accept button in the driver's list is disabled, and the handler
resets isAccepting to None on every one of its paths — missing token,
success, server error of any shape, or thrown network error. -/
theorem claim10_accept_in_flight :
    (∀ rid itemId, acceptButtonDisabledFor (some rid) itemId = true) ∧
    (∀ rid tok resp rd st,
      (runHandleAccept rid tok resp rd st).isAccepting = none) := by
  constructor
  · intro rid itemId
    simp [acceptButtonDisabledFor]
  · intro rid tok resp rd st
    rfl

end SmartTaxi
